import Mathlib

set_option autoImplicit false

/-!
# Verification of `redis-client-cache` (src/redis-client-cache.js)

A shallow embedding of the class-based `RedisClientCache` module.  JavaScript
objects holding client constructor options are modelled as association lists of
(field name, value) pairs; JS `Map`/`WeakMap` instances as association lists
keyed by strings resp. by key-object identities (numeric ids); freshly
constructed redis clients as numeric ids drawn from a counter.  Asynchronous
side effects (disconnects, client construction, probe calls, lazy installation
of promisified functions) are recorded in an explicit effect list: the code
fires them without awaiting them, so the return value of a call never depends on
their outcome.  Logging calls (`context.trace/warn/error`) and the six
lifecycle event listeners attached by `createNewClient` are elided: they do not
affect cache state or return values.
-/

/-- A JavaScript value as it occurs in a redis-client options object
(strings, numbers, booleans).  `deep-equal` with `{strict: true}` on such
atomic values coincides with typed equality. -/
inductive JsVal where
  | vStr (s : String)
  | vNum (n : Int)
  | vBool (b : Bool)
deriving DecidableEq, Repr

/-- JS truthiness of a value (`""`, `0` and `false` are falsy). -/
def JsVal.truthy : JsVal → Bool
  | .vStr s => s ≠ ""
  | .vNum n => n ≠ 0
  | .vBool b => b

/-- JS template-literal stringification of a value, as used in
`` `${host}:${port}` ``. -/
def JsVal.show : JsVal → String
  | .vStr s => s
  | .vNum n => toString n
  | .vBool b => if b then "true" else "false"

/-- Stringification of a possibly-`undefined` value; JS renders `undefined`
as the string "undefined" inside a template literal. -/
def JsVal.showO : Option JsVal → String
  | none => "undefined"
  | some v => v.show

/-- A RedisClient options object: an association list of own enumerable
properties in insertion order.  A real JS object never has two properties
with the same name, so well-formed configurations have `Nodup` keys. -/
abbrev Config := List (String × JsVal)

/-! ## Association-list primitives (JS `Map`/`WeakMap`/object semantics) -/

/-- Lookup of the (first) entry with the given key — JS `map.get(k)` /
property read. -/
def alookup {κ α : Type} [DecidableEq κ] (k : κ) : List (κ × α) → Option α
  | [] => none
  | (k', v) :: t => if k' = k then some v else alookup k t

/-- JS `map.set(k, v)` / property assignment: replaces the value in place if
the key is present (keeping its position), otherwise appends a new entry. -/
def aset {κ α : Type} [DecidableEq κ] (k : κ) (v : α) : List (κ × α) → List (κ × α)
  | [] => [(k, v)]
  | (k', v') :: t => if k' = k then (k, v) :: t else (k', v') :: aset k v t

/-- JS `map.delete(k)`: removes the (first) entry with the given key. -/
def adel {κ α : Type} [DecidableEq κ] (k : κ) : List (κ × α) → List (κ × α)
  | [] => []
  | (k', v') :: t => if k' = k then t else (k', v') :: adel k t

/-- Strict deep equality of two options objects, as computed by the
`deep-equal` package with `{strict: true}`: same set of own property names,
and strictly equal values at each name — independent of property order. -/
def deepEqualCfg (a b : Config) : Bool :=
  a.all (fun kv => alookup kv.1 b = some kv.2) &&
  b.all (fun kv => alookup kv.1 a = some kv.2)

/-- `deepEqual(optionsUsed, options, strict)` where `optionsUsed` may be
`undefined` (`deep-equal` then reports `false` against an object). -/
def deepEqualOpt (a : Option Config) (b : Config) : Bool :=
  match a with
  | none => false
  | some a => deepEqualCfg a b

/-! ## External collaborators -/

/-- The Redis adapter consumed by the cache (constructor argument
`redisAdapter`): default endpoint plus the MOVED-error predicate and target
extractor.  `createClient` is modelled by drawing a fresh numeric client id
from the counter in the cache state. -/
structure Adapter where
  defaultHost : JsVal
  defaultPort : JsVal
  isMovedError : Nat → Bool
  movedTarget : Nat → JsVal × JsVal

/-- The observable surface of a redis client instance: `isClosing()`,
`resolveHostAndPort()` and `getOptions()`, indexed by client id.  These are
owned by the underlying redis implementation, not by the cache. -/
structure ClientEnv where
  isClosing : Nat → Bool
  hostPort : Nat → JsVal × JsVal
  getOptions : Nat → Config

/-! ## Cache state -/

/-- A host-port key object `{host, port}` as minted by `getOrSetHostPortKey`;
`id` models its JS object identity (WeakMap keys compare by identity). -/
structure KeyObj where
  id : Nat
  host : JsVal
  port : JsVal
deriving DecidableEq, Repr

/-- The module-scope mutable state of `redis-client-cache.js`:
`hostPortKeysByHostPort` (string → key object), `redisClientsByHostPortKey`
and `redisClientOptionsByHostPortKey` (key identity → client / options
snapshot), plus the two freshness counters of the model. -/
structure CacheState where
  registry : List (String × KeyObj)
  clients : List (Nat × Nat)
  optionsUsed : List (Nat × Config)
  nextKeyId : Nat
  nextClientId : Nat
deriving DecidableEq, Repr

/-- The empty module-scope state at load time. -/
def emptyCache : CacheState :=
  { registry := [], clients := [], optionsUsed := [], nextKeyId := 0, nextClientId := 0 }

/-- An asynchronous side effect fired (not awaited) by a cache operation. -/
inductive Effect where
  | createClient (id : Nat) (opts : Config)
  | disconnect (client : Nat)
  | installFn (name : String)
  | probePing (client : Nat)
deriving DecidableEq, Repr

/-! ## Helper functions of the module -/

/-- One block of `resolveHostAndPortFromOptions`:
`let x = options.k; if (!x) { x = default; options.k = x; } return x` —
reads the field, and writes the default back when the value is falsy. -/
def resolveField (k : String) (d : JsVal) (opts : Config) : JsVal × Config :=
  match alookup k opts with
  | some v => if v.truthy then (v, opts) else (d, aset k d opts)
  | none => (d, aset k d opts)

/-- `resolveHostAndPortFromOptions(options, defaultHost, defaultPort, context)`:
reads `options.host` / `options.port`, writes the adapter default back into
the options for any falsy one, and returns the pair actually used. -/
def resolveHostPort (A : Adapter) (opts : Config) : JsVal × JsVal × Config :=
  let h := resolveField "host" A.defaultHost opts
  let p := resolveField "port" A.defaultPort h.2
  (h.1, p.1, p.2)

/-- The composite registry key `` `${host}:${port}` ``. -/
def hostPortString (h p : JsVal) : String := h.show ++ ":" ++ p.show

/-- `getHostPortKey(host, port)` on possibly-`undefined` arguments: a plain
lookup in the string-keyed registry, no defaulting. -/
def getHostPortKeyO (s : CacheState) (h p : Option JsVal) : Option KeyObj :=
  alookup (JsVal.showO h ++ ":" ++ JsVal.showO p) s.registry

/-- `getOrSetHostPortKey(host, port)`: returns the interned key object for the
endpoint, minting (and registering) a fresh one if none exists. -/
def getOrSetHostPortKey (h p : JsVal) (s : CacheState) : KeyObj × CacheState :=
  match alookup (hostPortString h p) s.registry with
  | some k => (k, s)
  | none =>
    let k : KeyObj := ⟨s.nextKeyId, h, p⟩
    (k, { s with registry := aset (hostPortString h p) k s.registry,
                 nextKeyId := s.nextKeyId + 1 })

/-- `deleteClientByHostPortKey(hostPortKey, context)`: removes the options
snapshot and the client entry for the key and reports whether a client entry
existed.  Note: the source then calls `hostPortKeysByHostPort.delete(hostPortKey)`
passing the key OBJECT to the string-keyed registry map, which matches no
entry — so the registry is left unchanged, exactly as in the code. -/
def deleteClientByKey (key : Option KeyObj) (s : CacheState) : Bool × CacheState :=
  match key with
  | none => (false, s)
  | some k =>
    let s1 := { s with optionsUsed := adel k.id s.optionsUsed }
    let deleted := (alookup k.id s1.clients).isSome
    (deleted, { s1 with clients := adel k.id s1.clients })

/-! ## Public cache operations -/

/-- `getRedisClient(host, port)`: registry lookup of the verbatim
(possibly-`undefined`) arguments followed by a client-map lookup; no
defaulting, no mutation, no creation. -/
def getRedisClientO (s : CacheState) (h p : Option JsVal) : Option Nat :=
  match getHostPortKeyO s h p with
  | some k => alookup k.id s.clients
  | none => none

/-- `getRedisClientOptionsUsed(host, port)`: like `getRedisClientO` but on the
options-snapshot map. -/
def getRedisClientOptionsUsedO (s : CacheState) (h p : Option JsVal) : Option Config :=
  match getHostPortKeyO s h p with
  | some k => alookup k.id s.optionsUsed
  | none => none

/-- `createNewClient(redisClientOptions, context)`: re-resolves host & port
into the options, snapshots the options as used, constructs a fresh client,
caches both under the (possibly freshly minted) key, and returns the client.
The snapshot `copy(redisClientOptions, deep)` is a value in this model. -/
def createNewClient (A : Adapter) (opts : Config) (s : CacheState) :
    Nat × CacheState × List Effect :=
  let r := resolveHostPort A opts
  let host := r.1
  let port := r.2.1
  let opts1 := r.2.2
  let cid := s.nextClientId
  let ks := getOrSetHostPortKey host port s
  let k := ks.1
  let s1 := ks.2
  (cid,
   { s1 with clients := aset k.id cid s1.clients,
             optionsUsed := aset k.id opts1 s1.optionsUsed,
             nextClientId := s1.nextClientId + 1 },
   [Effect.createClient cid opts1])

/-- `Object.getOwnPropertyNames(redisClientOptions).length === 0` on the
original caller argument, including the `!redisClientOptions` guard. -/
def noOwnProps : Option Config → Bool
  | none => true
  | some l => l.isEmpty

/-- `setRedisClient(redisClientOptions, context)`: the central reuse-or-replace
decision procedure.  Mirrors the source order: copy & resolve the options,
intern the key, then — if a client is cached — reuse it (replacing it only if
it `isClosing`) when the caller gave no options, only host & port, or options
strictly deep-equal to the stored snapshot; otherwise evict, fire an
un-awaited disconnect of the old client, and create a new one. -/
def setRedisClient (A : Adapter) (env : ClientEnv) (optsIn : Option Config)
    (s : CacheState) : Nat × CacheState × List Effect :=
  let options := optsIn.getD []
  let r := resolveHostPort A options
  let host := r.1
  let port := r.2.1
  let options := r.2.2
  let ks := getOrSetHostPortKey host port s
  let k := ks.1
  let s1 := ks.2
  match alookup k.id s1.clients with
  | none => createNewClient A options s1
  | some rc =>
    -- `reuseRedisClientIfNotClosing`
    let reuse : Nat × CacheState × List Effect :=
      if env.isClosing rc then
        let s2 := (deleteClientByKey (some k) s1).2
        createNewClient A options s2
      else (rc, s1, [])
    if noOwnProps optsIn then reuse
    else if options.length = 2 then reuse
    else
      let used := alookup k.id s1.optionsUsed
      if deepEqualOpt used options then reuse
      else
        let s2 := (deleteClientByKey (some k) s1).2
        let res := createNewClient A options s2
        (res.1, res.2.1, Effect.disconnect rc :: res.2.2)

/-- `deleteAndDisconnectRedisClient(host, port, context)`: looks up the key
and client, synchronously deletes the record, and fires an un-awaited
disconnect of the client if there was one (its promise is `.catch`-logged,
never surfaced).  Returns the `deleted` flag (the `host`/`port` echo of the
result object is elided). -/
def deleteAndDisconnectRedisClient (s : CacheState) (h p : Option JsVal) :
    Bool × CacheState × List Effect :=
  let key := getHostPortKeyO s h p
  let rc := key.bind (fun k => alookup k.id s.clients)
  let d := deleteClientByKey key s
  (d.1, d.2, match rc with | some c => [Effect.disconnect c] | none => [])

/-- `replaceRedisClientIfClosing(redisClient, context)`: if the client reports
closing, evict the record of its endpoint and create a replacement from the stored
snapshot (falling back to `getOptions()` of the client); otherwise return
it unchanged. -/
def replaceRedisClientIfClosing (A : Adapter) (env : ClientEnv) (rc : Nat)
    (s : CacheState) : Nat × CacheState × List Effect :=
  let hp := env.hostPort rc
  if env.isClosing rc then
    let key := alookup (hostPortString hp.1 hp.2) s.registry
    let options :=
      match key.bind (fun k => alookup k.id s.optionsUsed) with
      | some o => o
      | none => env.getOptions rc
    let s1 := (deleteClientByKey key s).2
    createNewClient A options s1
  else (rc, s, [])

/-- `getRedisClientAndReplaceIfClosing(host, port, context)`. -/
def getRedisClientAndReplaceIfClosing (A : Adapter) (env : ClientEnv)
    (s : CacheState) (h p : Option JsVal) : Option Nat × CacheState × List Effect :=
  match (getHostPortKeyO s h p).bind (fun k => alookup k.id s.clients) with
  | some rc =>
    if env.isClosing rc then
      let res := replaceRedisClientIfClosing A env rc s
      (some res.1, res.2.1, res.2.2)
    else (some rc, s, [])
  | none => (none, s, [])

/-- The two-handler `.then(onOk, onErr)` of a settled promise. -/
def pthen2 {E A B : Type} (p : Except E A) (onOk : A → Except E B)
    (onErr : E → Except E B) : Except E B :=
  match p with
  | .ok a => onOk a
  | .error e => onErr e

/-- `isRedisClientUsable(redisClient, context)`: resolves `false` at once for
a closing client (no probe); otherwise lazily installs `pingAsync` when it is
missing, issues the ping probe, and maps success to `true` and any rejection
to `false` via the two-handler `.then`.  `ping` gives the probe
outcome of each client; `pingInstalled` models the presence of `redisClient.pingAsync`. -/
def isRedisClientUsable (env : ClientEnv) (ping : Nat → Except Nat JsVal)
    (pingInstalled : Bool) (rc : Nat) : Except Nat Bool × List Effect :=
  if !(env.isClosing rc) then
    (pthen2 (ping rc) (fun _ => Except.ok true) (fun _ => Except.ok false),
     (if pingInstalled then [] else [Effect.installFn "pingAsync"]) ++ [Effect.probePing rc])
  else (Except.ok false, [])

/-- The fallback chain `redisClientOptions || (hostPortKey &&
redisClientOptionsByHostPortKey.get(hostPortKey)) || redisClient.getOptions()`
picking the options for the replacement client in
`replaceRedisClientIfUnusable` (a configuration object is always truthy, so
only `undefined` falls through each step). -/
def replacementOptions (env : ClientEnv) (optsIn : Option Config) (rc : Nat)
    (s : CacheState) : Config :=
  match optsIn with
  | some o => o
  | none =>
    match (alookup (hostPortString (env.hostPort rc).1 (env.hostPort rc).2) s.registry).bind
        (fun k => alookup k.id s.optionsUsed) with
    | some o => o
    | none => env.getOptions rc

/-- `replaceRedisClientIfUnusable(redisClient, redisClientOptions, context)`:
probes the client; when usable, returns the same instance; when not, picks the
replacement options via `replacementOptions`, evicts the record, fires a
best-effort disconnect (caught and logged), and creates a replacement. -/
def replaceRedisClientIfUnusable (A : Adapter) (env : ClientEnv)
    (ping : Nat → Except Nat JsVal) (pingInstalled : Bool)
    (optsIn : Option Config) (rc : Nat) (s : CacheState) :
    Except Nat (Nat × CacheState × List Effect) :=
  let u := isRedisClientUsable env ping pingInstalled rc
  match u.1 with
  | .error e => .error e
  | .ok usable =>
    if usable then .ok (rc, s, u.2)
    else
      let hp := env.hostPort rc
      let key := alookup (hostPortString hp.1 hp.2) s.registry
      let options := replacementOptions env optsIn rc s
      let s1 := (deleteClientByKey key s).2
      let res := createNewClient A options s1
      .ok (res.1, res.2.1, u.2 ++ Effect.disconnect rc :: res.2.2)

/-- The options used after a MOVED reply: the last-used configuration stored
for the old endpoint of the failing client (`getRedisClientOptionsUsed(oldHost,
oldPort) || redisClient.getOptions()`), deep-copied, with the new host and
port from the error written in (`newOptions.host = newHost; newOptions.port =
newPort`).  `oldOptions` is always an object here, so the `: {}` branch of
`oldOptions ? copy(oldOptions, deep) : {}` is dead. -/
def movedOptions (A : Adapter) (env : ClientEnv) (s : CacheState) (rc e : Nat) : Config :=
  let nhp := A.movedTarget e
  let ohp := env.hostPort rc
  let oldOptions :=
    match getRedisClientOptionsUsedO s (some ohp.1) (some ohp.2) with
    | some o => o
    | none => env.getOptions rc
  aset "port" nhp.2 (aset "host" nhp.1 oldOptions)

/-- The `execAsync` wrapper installed by `promisifyClientFunction`: runs the
operation (`behave` gives the outcome of this operation per client); on a
MOVED error it obtains a client for the new endpoint via `setRedisClient` with
`movedOptions` and retries exactly once — a second MOVED error on the retry is
not followed; a failed retry fires a disconnect of the new client and rejects
with the error of the retry; a non-MOVED error fires a disconnect of the
original client and rejects with the original error. -/
def execAsync (A : Adapter) (env : ClientEnv) (behave : Nat → Except Nat JsVal)
    (rc : Nat) (s : CacheState) : Except Nat JsVal × CacheState × List Effect :=
  match behave rc with
  | .ok v => (.ok v, s, [])
  | .error e =>
    if A.isMovedError e then
      let res := setRedisClient A env (some (movedOptions A env s rc e)) s
      match behave res.1 with
      | .ok v => (.ok v, res.2.1, res.2.2)
      | .error e2 => (.error e2, res.2.1, res.2.2 ++ [Effect.disconnect res.1])
    else
      (.error e, s, [Effect.disconnect rc])

/-- One iteration of the `clearCache` map: read the client cached for the
key, delete the record, and fire a disconnect if a client was there. -/
def clearStep (acc : CacheState × List Effect) (k : KeyObj) : CacheState × List Effect :=
  let rcOpt := alookup k.id acc.1.clients
  let st1 := (deleteClientByKey (some k) acc.1).2
  (st1, acc.2 ++ (match rcOpt with | some c => [Effect.disconnect c] | none => []))

/-- `clearCache(context)`: snapshots the key objects of the registry, then deletes
each record and fires a disconnect for each client that was cached (the
per-endpoint result objects are elided; partial failures are captured there,
not thrown). -/
def clearCache (s : CacheState) : CacheState × List Effect :=
  (s.registry.map Prod.snd).foldl clearStep (s, [])

/-! ## Concrete instances used by witnesses -/

/-- A concrete adapter (the defaults of the bundled `redis` implementation). -/
def A0 : Adapter :=
  { defaultHost := .vStr "127.0.0.1", defaultPort := .vNum 6379,
    isMovedError := fun e => e % 2 = 1, movedTarget := fun _ => (.vStr "h2", .vNum 7000) }

/-- A concrete client environment: no client is closing. -/
def env0 : ClientEnv :=
  { isClosing := fun _ => false,
    hostPort := fun _ => (.vStr "127.0.0.1", .vNum 6379),
    getOptions := fun _ => [] }

/-- A concrete cache state with client 0 cached for the default endpoint. -/
def sW : CacheState :=
  { registry := [("127.0.0.1:6379", ⟨0, .vStr "127.0.0.1", .vNum 6379⟩)],
    clients := [(0, 0)],
    optionsUsed := [(0, [("host", .vStr "127.0.0.1"), ("port", .vNum 6379)])],
    nextKeyId := 1, nextClientId := 1 }

/-- Like `sW`, but the stored snapshot has an extra field `a`. -/
def sW2 : CacheState :=
  { registry := [("127.0.0.1:6379", ⟨0, .vStr "127.0.0.1", .vNum 6379⟩)],
    clients := [(0, 0)],
    optionsUsed := [(0, [("host", .vStr "127.0.0.1"), ("port", .vNum 6379), ("a", .vNum 1)])],
    nextKeyId := 1, nextClientId := 1 }

/-- Modelled from the spec: `getConnection(host?, port?)` "Resolves host/port
to defaults if omitted; pure lookup" — the adapter-default resolution step the
spec (and the doc comment of `getRedisClient` itself) describe for omitted
arguments, applied before the pure lookup.  The shipped method body performs
no such resolution; this definition exists to exhibit the divergence. -/
def getRedisClientSpecModel (A : Adapter) (s : CacheState) (h p : Option JsVal) : Option Nat :=
  getRedisClientO s (some (h.getD A.defaultHost)) (some (p.getD A.defaultPort))

/-! ## Sequences of public cache operations (for the lockstep invariant) -/

/-- One public cache operation, bundled with the external collaborators it
consults (adapter, client surface, probe outcomes). -/
inductive CacheOp where
  | setOp (A : Adapter) (env : ClientEnv) (opts : Option Config)
  | createOp (A : Adapter) (opts : Config)
  | delOp (h p : Option JsVal)
  | clearOp
  | replaceClosingOp (A : Adapter) (env : ClientEnv) (rc : Nat)
  | getReplaceClosingOp (A : Adapter) (env : ClientEnv) (h p : Option JsVal)
  | replaceUnusableOp (A : Adapter) (env : ClientEnv) (ping : Nat → Except Nat JsVal)
      (pingInstalled : Bool) (opts : Option Config) (rc : Nat)

/-- The cache-state transition of one public operation (results and effects
dropped). -/
def applyOp (s : CacheState) : CacheOp → CacheState
  | .setOp A env opts => (setRedisClient A env opts s).2.1
  | .createOp A opts => (createNewClient A opts s).2.1
  | .delOp h p => (deleteAndDisconnectRedisClient s h p).2.1
  | .clearOp => (clearCache s).1
  | .replaceClosingOp A env rc => (replaceRedisClientIfClosing A env rc s).2.1
  | .getReplaceClosingOp A env h p => (getRedisClientAndReplaceIfClosing A env s h p).2.1
  | .replaceUnusableOp A env ping pingInstalled opts rc =>
    match replaceRedisClientIfUnusable A env ping pingInstalled opts rc s with
    | .ok r => r.2.1
    | .error _ => s

/-- Runs a sequence of public cache operations from a starting state. -/
def applyOps (ops : List CacheOp) (s : CacheState) : CacheState := ops.foldl applyOp s

/-- Well-formedness of the two record maps: unique keys in each, and an entry
in the client map exactly when there is one in the options map (they are
written together at creation and deleted together at eviction). -/
def mapsWF (cli : List (Nat × Nat)) (opt : List (Nat × Config)) : Prop :=
  (cli.map Prod.fst).Nodup ∧ (opt.map Prod.fst).Nodup ∧
  ∀ kid : Nat, (alookup kid cli).isSome = (alookup kid opt).isSome

/-! ## Reference-passing model of the options objects (for the deep-copy
guarantee) -/

/-- The cache state with the options snapshots held BY REFERENCE into an
explicit heap of configuration objects: `optsRef` maps a key identity to a
heap reference, `heap` maps references to current object values, and
`heapNext` is the allocation counter.  `copy(x, deep)` becomes a fresh
allocation, so the aliasing behaviour of the source is visible. -/
structure RCache where
  registry : List (String × KeyObj)
  clients : List (Nat × Nat)
  optsRef : List (Nat × Nat)
  nextKeyId : Nat
  nextClientId : Nat
  heap : List (Nat × Config)
  heapNext : Nat

/-- Dereferences a configuration object. -/
def RCache.read (s : RCache) (r : Nat) : Option Config := alookup r s.heap

/-- A caller mutating the configuration object behind reference `r` in place
(after a cache call has returned). -/
def mutateRef (s : RCache) (r : Nat) (v : Config) : RCache :=
  { s with heap := aset r v s.heap }

/-- `getOrSetHostPortKey` on the reference-passing state. -/
def getOrSetHostPortKeyR (h p : JsVal) (s : RCache) : KeyObj × RCache :=
  match alookup (hostPortString h p) s.registry with
  | some k => (k, s)
  | none =>
    let k : KeyObj := ⟨s.nextKeyId, h, p⟩
    (k, { s with registry := aset (hostPortString h p) k s.registry,
                 nextKeyId := s.nextKeyId + 1 })

/-- `deleteClientByHostPortKey` on the reference-passing state (the registry
is untouched, as in the source). -/
def deleteClientByKeyR (key : Option KeyObj) (s : RCache) : RCache :=
  match key with
  | none => s
  | some k => { s with clients := adel k.id s.clients, optsRef := adel k.id s.optsRef }

/-- `createNewClient` on the reference-passing state: the snapshot
`optionsUsed = copy(redisClientOptions, deep)` is a FRESH allocation holding
the current value of the options, and the record stores that fresh reference. -/
def createNewClientRef (A : Adapter) (opts : Config) (s : RCache) : Nat × RCache :=
  let r := resolveHostPort A opts
  let cid := s.nextClientId
  let ks := getOrSetHostPortKeyR r.1 r.2.1 s
  let snapRef := ks.2.heapNext
  (cid,
   { ks.2 with clients := aset ks.1.id cid ks.2.clients,
               optsRef := aset ks.1.id snapRef ks.2.optsRef,
               heap := aset snapRef r.2.2 ks.2.heap,
               heapNext := ks.2.heapNext + 1,
               nextClientId := ks.2.nextClientId + 1 })

/-- `setRedisClient` on the reference-passing state: the caller passes a
reference to their options object (or none); the call starts by reading its
CURRENT value (the deep copy), and all decisions compare values obtained by
dereferencing the stored snapshot references. -/
def setRedisClientRef (A : Adapter) (env : ClientEnv) (inRef : Option Nat)
    (s : RCache) : Nat × RCache :=
  let origVal := inRef.map (fun r => (s.read r).getD [])
  let options := origVal.getD []
  let r := resolveHostPort A options
  let ks := getOrSetHostPortKeyR r.1 r.2.1 s
  let k := ks.1
  let s1 := ks.2
  match alookup k.id s1.clients with
  | none => createNewClientRef A r.2.2 s1
  | some rc =>
    let reuse : Nat × RCache :=
      if env.isClosing rc then
        createNewClientRef A r.2.2 (deleteClientByKeyR (some k) s1)
      else (rc, s1)
    if noOwnProps origVal then reuse
    else if r.2.2.length = 2 then reuse
    else
      let used := (alookup k.id s1.optsRef).bind s1.read
      if deepEqualOpt used r.2.2 then reuse
      else createNewClientRef A r.2.2 (deleteClientByKeyR (some k) s1)

/-- The configuration VALUE a later `getRedisClientOptionsUsed` call observes
for an endpoint (the stored snapshot object, dereferenced). -/
def getOptionsUsedRefO (s : RCache) (h p : Option JsVal) : Option Config :=
  match alookup (JsVal.showO h ++ ":" ++ JsVal.showO p) s.registry with
  | some k => (alookup k.id s.optsRef).bind s.read
  | none => none

/-- Heap well-formedness: every allocated reference is below the allocation
counter, so a fresh allocation never collides with a live object. -/
def RWF (s : RCache) : Prop := ∀ e ∈ s.heap, e.1 < s.heapNext

/-- A concrete reference-passing cache state: empty cache, one caller-owned
configuration object allocated at reference 0. -/
def sWR : RCache :=
  { registry := [], clients := [], optsRef := [], nextKeyId := 0, nextClientId := 0,
    heap := [(0, [("host", .vStr "h1"), ("port", .vNum 1)])], heapNext := 1 }

/-! ## Laws of the association-list primitives -/

theorem alookup_aset {κ α : Type} [DecidableEq κ] (k j : κ) (v : α) (l : List (κ × α)) :
    alookup j (aset k v l) = if k = j then some v else alookup j l := by
  induction l with
  | nil => simp [aset, alookup]
  | cons kv t ih =>
    obtain ⟨k1, v1⟩ := kv
    by_cases hk : k1 = k
    · subst hk
      by_cases hj : k1 = j <;> simp [aset, alookup, hj]
    · by_cases hj : k1 = j
      · subst hj
        have hkj : ¬ k = k1 := fun h => hk h.symm
        simp [aset, alookup, hk, hkj]
      · simp [aset, alookup, hk, hj, ih]

theorem aset_of_lookup_eq {κ α : Type} [DecidableEq κ] (k : κ) (v : α) (l : List (κ × α))
    (h : alookup k l = some v) : aset k v l = l := by
  induction l with
  | nil => simp [alookup] at h
  | cons kv t ih =>
    obtain ⟨k1, v1⟩ := kv
    by_cases hk : k1 = k
    · subst hk
      simp [alookup] at h
      simp [aset, h]
    · simp [alookup, hk] at h
      simp [aset, hk, ih h]

theorem alookup_adel_ne {κ α : Type} [DecidableEq κ] (k j : κ) (l : List (κ × α))
    (h : ¬ k = j) : alookup j (adel k l) = alookup j l := by
  induction l with
  | nil => simp [adel]
  | cons kv t ih =>
    obtain ⟨k1, v1⟩ := kv
    by_cases hk : k1 = k
    · subst hk
      have : ¬ k1 = j := fun hj => h hj
      simp [adel, alookup, this]
    · simp [adel, alookup, hk, ih]

theorem alookup_eq_none_of_not_mem {κ α : Type} [DecidableEq κ] (k : κ) (l : List (κ × α))
    (h : k ∉ l.map Prod.fst) : alookup k l = none := by
  induction l with
  | nil => simp [alookup]
  | cons kv t ih =>
    simp only [List.map_cons, List.mem_cons] at h
    push_neg at h
    have hk : ¬ kv.1 = k := fun he => h.1 he.symm
    simp [alookup, hk, ih h.2]

theorem alookup_adel_self {κ α : Type} [DecidableEq κ] (k : κ) (l : List (κ × α))
    (hnd : (l.map Prod.fst).Nodup) : alookup k (adel k l) = none := by
  induction l with
  | nil => simp [adel, alookup]
  | cons kv t ih =>
    simp only [List.map_cons, List.nodup_cons] at hnd
    by_cases hk : kv.1 = k
    · subst hk
      simp only [adel, if_pos rfl]
      exact alookup_eq_none_of_not_mem _ _ hnd.1
    · simp [adel, alookup, hk, ih hnd.2]

/-! ## Laws of `resolveField` / `resolveHostPort` -/

theorem resolveField_lookup_self (k : String) (d : JsVal) (o : Config) :
    alookup k (resolveField k d o).2 = some (resolveField k d o).1 := by
  unfold resolveField
  cases h : alookup k o with
  | none => simp [alookup_aset]
  | some v => by_cases ht : v.truthy <;> simp [ht, h, alookup_aset]

theorem resolveField_lookup_ne (k j : String) (d : JsVal) (o : Config) (h : ¬ k = j) :
    alookup j (resolveField k d o).2 = alookup j o := by
  unfold resolveField
  cases hv : alookup k o with
  | none => simp [alookup_aset, h]
  | some v => by_cases ht : v.truthy <;> simp [ht, alookup_aset, h]

theorem resolveField_default (k : String) (d : JsVal) (o : Config)
    (h : (resolveField k d o).1.truthy = false) : (resolveField k d o).1 = d := by
  unfold resolveField at *
  cases hv : alookup k o with
  | none => simp
  | some v =>
    by_cases ht : v.truthy
    · rw [hv] at h; simp [ht] at h
    · simp [hv, ht]

theorem resolveField_stable (k : String) (d : JsVal) (o : Config) (x : JsVal)
    (hl : alookup k o = some x) (hd : x.truthy = false → x = d) :
    resolveField k d o = (x, o) := by
  unfold resolveField
  rw [hl]
  by_cases ht : x.truthy
  · simp [ht]
  · have hx : x = d := hd (by simpa using ht)
    subst hx
    simp [ht, aset_of_lookup_eq _ _ _ hl]

theorem resolveField_truthy_or_default (k : String) (d : JsVal) (o : Config) :
    (resolveField k d o).1.truthy = false → (resolveField k d o).1 = d :=
  resolveField_default k d o

theorem resolveHostPort_lookup_host (A : Adapter) (o : Config) :
    alookup "host" (resolveHostPort A o).2.2 = some (resolveHostPort A o).1 := by
  unfold resolveHostPort
  rw [resolveField_lookup_ne "port" "host" _ _ (by decide)]
  exact resolveField_lookup_self _ _ _

theorem resolveHostPort_lookup_port (A : Adapter) (o : Config) :
    alookup "port" (resolveHostPort A o).2.2 = some (resolveHostPort A o).2.1 := by
  unfold resolveHostPort
  exact resolveField_lookup_self _ _ _

theorem resolveHostPort_idem (A : Adapter) (o : Config) :
    resolveHostPort A (resolveHostPort A o).2.2 = resolveHostPort A o := by
  have hh := resolveHostPort_lookup_host A o
  have hp := resolveHostPort_lookup_port A o
  unfold resolveHostPort at *
  have h1 : resolveField "host" A.defaultHost
      (resolveField "port" A.defaultPort (resolveField "host" A.defaultHost o).2).2 =
      ((resolveField "host" A.defaultHost o).1,
       (resolveField "port" A.defaultPort (resolveField "host" A.defaultHost o).2).2) :=
    resolveField_stable _ _ _ _ hh (resolveField_default _ _ _)
  have h2 : resolveField "port" A.defaultPort
      (resolveField "port" A.defaultPort (resolveField "host" A.defaultHost o).2).2 =
      ((resolveField "port" A.defaultPort (resolveField "host" A.defaultHost o).2).1,
       (resolveField "port" A.defaultPort (resolveField "host" A.defaultHost o).2).2) :=
    resolveField_stable _ _ _ _ hp (resolveField_default _ _ _)
  simp [h1, h2]

/-! ## Unfolding laws of the cache operations -/

theorem getOrSetHostPortKey_hit (h p : JsVal) (s : CacheState) (k : KeyObj)
    (hk : alookup (hostPortString h p) s.registry = some k) :
    getOrSetHostPortKey h p s = (k, s) := by
  simp [getOrSetHostPortKey, hk]

theorem createNewClient_client (A : Adapter) (o : Config) (s : CacheState) :
    (createNewClient A o s).1 = s.nextClientId := by
  unfold createNewClient getOrSetHostPortKey
  cases h : alookup (hostPortString (resolveHostPort A o).1 (resolveHostPort A o).2.1) s.registry <;>
    simp [h]

theorem createNewClient_nextClientId (A : Adapter) (o : Config) (s : CacheState) :
    (createNewClient A o s).2.1.nextClientId = s.nextClientId + 1 := by
  unfold createNewClient getOrSetHostPortKey
  cases h : alookup (hostPortString (resolveHostPort A o).1 (resolveHostPort A o).2.1) s.registry <;>
    simp [h]

theorem createNewClient_hit (A : Adapter) (o : Config) (s : CacheState) (k : KeyObj)
    (hk : alookup (hostPortString (resolveHostPort A o).1 (resolveHostPort A o).2.1) s.registry
      = some k) :
    createNewClient A o s =
      (s.nextClientId,
       { s with clients := aset k.id s.nextClientId s.clients,
                optionsUsed := aset k.id (resolveHostPort A o).2.2 s.optionsUsed,
                nextClientId := s.nextClientId + 1 },
       [Effect.createClient s.nextClientId (resolveHostPort A o).2.2]) := by
  unfold createNewClient
  simp [getOrSetHostPortKey_hit _ _ _ _ hk]

theorem getRedisClient_createNewClient (A : Adapter) (o : Config) (s : CacheState) :
    getRedisClientO (createNewClient A o s).2.1
        (some (resolveHostPort A o).1) (some (resolveHostPort A o).2.1)
      = some (createNewClient A o s).1 := by
  unfold createNewClient getOrSetHostPortKey
  cases hk : alookup (hostPortString (resolveHostPort A o).1 (resolveHostPort A o).2.1) s.registry with
  | some k =>
    simp [hk, getRedisClientO, getHostPortKeyO, JsVal.showO, hostPortString] at *
    simp [hk, alookup_aset]
  | none =>
    simp [hk, getRedisClientO, getHostPortKeyO, JsVal.showO, hostPortString] at *
    simp [alookup_aset]

/-- C1: for an endpoint with a cached connection, `setRedisClient` returns the
cached instance — with no new client constructed, no effect fired and the state
untouched — whenever the caller options are absent/empty, resolve to only host
and port, or are strictly deep-equal to the stored snapshot, provided the
cached connection is not closing; if it IS closing in any of these cases, the
record is evicted and a fresh client (a new id, cached under the same key,
with the resolved options as snapshot) is constructed and returned. -/
theorem c1_setConnection_reuses_or_replaces_closing (A : Adapter) (env : ClientEnv)
    (s : CacheState) (optsIn : Option Config) (h p : JsVal) (opts1 : Config)
    (k : KeyObj) (rc : Nat)
    (hres : resolveHostPort A (optsIn.getD []) = (h, p, opts1))
    (hreg : alookup (hostPortString h p) s.registry = some k)
    (hcli : alookup k.id s.clients = some rc)
    (hlt : rc < s.nextClientId)
    (hcase : noOwnProps optsIn = true ∨ opts1.length = 2 ∨
      deepEqualOpt (alookup k.id s.optionsUsed) opts1 = true) :
    (env.isClosing rc = false → setRedisClient A env optsIn s = (rc, s, []))
    ∧ (env.isClosing rc = true →
        setRedisClient A env optsIn s =
          (s.nextClientId,
           { registry := s.registry,
             clients := aset k.id s.nextClientId (adel k.id s.clients),
             optionsUsed := aset k.id opts1 (adel k.id s.optionsUsed),
             nextKeyId := s.nextKeyId,
             nextClientId := s.nextClientId + 1 },
           [Effect.createClient s.nextClientId opts1])
        ∧ s.nextClientId ≠ rc) := by
  have hidem : resolveHostPort A opts1 = (h, p, opts1) := by
    have hi := resolveHostPort_idem A (optsIn.getD [])
    rw [hres] at hi
    exact hi
  have hne : s.nextClientId ≠ rc := Nat.ne_of_gt hlt
  have hdel : deleteClientByKey (some k) s =
      ((alookup k.id s.clients).isSome,
       { registry := s.registry,
         clients := adel k.id s.clients,
         optionsUsed := adel k.id s.optionsUsed,
         nextKeyId := s.nextKeyId,
         nextClientId := s.nextClientId }) := by
    simp [deleteClientByKey]
  have hcreate : createNewClient A opts1
      { registry := s.registry,
        clients := adel k.id s.clients,
        optionsUsed := adel k.id s.optionsUsed,
        nextKeyId := s.nextKeyId,
        nextClientId := s.nextClientId } =
      (s.nextClientId,
       { registry := s.registry,
         clients := aset k.id s.nextClientId (adel k.id s.clients),
         optionsUsed := aset k.id opts1 (adel k.id s.optionsUsed),
         nextKeyId := s.nextKeyId,
         nextClientId := s.nextClientId + 1 },
       [Effect.createClient s.nextClientId opts1]) := by
    have := createNewClient_hit A opts1
      { registry := s.registry,
        clients := adel k.id s.clients,
        optionsUsed := adel k.id s.optionsUsed,
        nextKeyId := s.nextKeyId,
        nextClientId := s.nextClientId } k (by simpa [hidem] using hreg)
    simpa [hidem] using this
  unfold setRedisClient
  simp only [hres, getOrSetHostPortKey_hit _ _ _ _ hreg, hcli]
  rcases hcase with hc | hc | hc
  · constructor
    · intro hcl
      simp [hc, hcl]
    · intro hcl
      refine ⟨?_, hne⟩
      simp [hc, hcl, hdel, hcreate]
  · by_cases hno : noOwnProps optsIn = true
    · constructor
      · intro hcl
        simp [hno, hcl]
      · intro hcl
        refine ⟨?_, hne⟩
        simp [hno, hcl, hdel, hcreate]
    · constructor
      · intro hcl
        simp [hno, hc, hcl]
      · intro hcl
        refine ⟨?_, hne⟩
        simp [hno, hc, hcl, hdel, hcreate]
  · by_cases hno : noOwnProps optsIn = true
    · constructor
      · intro hcl
        simp [hno, hcl]
      · intro hcl
        refine ⟨?_, hne⟩
        simp [hno, hcl, hdel, hcreate]
    · by_cases hlen : opts1.length = 2
      · constructor
        · intro hcl
          simp [hno, hlen, hcl]
        · intro hcl
          refine ⟨?_, hne⟩
          simp [hno, hlen, hcl, hdel, hcreate]
      · constructor
        · intro hcl
          simp [hno, hlen, hc, hcl]
        · intro hcl
          refine ⟨?_, hne⟩
          simp [hno, hlen, hc, hcl, hdel, hcreate]

/-- Witness for C1: with no options supplied and a non-closing client 0
cached for the default endpoint, `setRedisClient` returns client 0 with the
state untouched and no effect fired. -/
theorem c1_witness : setRedisClient A0 env0 none sW = (0, sW, []) :=
  (c1_setConnection_reuses_or_replaces_closing A0 env0 sW none
      (.vStr "127.0.0.1") (.vNum 6379)
      [("host", .vStr "127.0.0.1"), ("port", .vNum 6379)]
      ⟨0, .vStr "127.0.0.1", .vNum 6379⟩ 0
      (by decide) (by decide) (by decide) (by decide) (Or.inl (by decide))).1 rfl

/-- C2: for an endpoint with a cached connection, when the caller options are
neither absent/empty nor merely host and port nor deep-equal to the stored
snapshot, `setRedisClient` evicts the old record, fires an un-awaited
disconnect of the old client (whose promise is `.catch`-logged in the source,
so no failure reaches the caller), constructs and caches a new client distinct
from the old one, and a subsequent `getRedisClientOptionsUsed` for the
endpoint returns the new resolved configuration. -/
theorem c2_setConnection_replaces_incompatible (A : Adapter) (env : ClientEnv)
    (s : CacheState) (optsIn : Option Config) (h p : JsVal) (opts1 : Config)
    (k : KeyObj) (rc : Nat)
    (hres : resolveHostPort A (optsIn.getD []) = (h, p, opts1))
    (hreg : alookup (hostPortString h p) s.registry = some k)
    (hcli : alookup k.id s.clients = some rc)
    (hlt : rc < s.nextClientId)
    (hno : noOwnProps optsIn = false)
    (hlen : ¬ opts1.length = 2)
    (hdeep : deepEqualOpt (alookup k.id s.optionsUsed) opts1 = false) :
    setRedisClient A env optsIn s =
      (s.nextClientId,
       { registry := s.registry,
         clients := aset k.id s.nextClientId (adel k.id s.clients),
         optionsUsed := aset k.id opts1 (adel k.id s.optionsUsed),
         nextKeyId := s.nextKeyId,
         nextClientId := s.nextClientId + 1 },
       [Effect.disconnect rc, Effect.createClient s.nextClientId opts1])
    ∧ s.nextClientId ≠ rc
    ∧ getRedisClientO (setRedisClient A env optsIn s).2.1 (some h) (some p)
        = some s.nextClientId
    ∧ getRedisClientOptionsUsedO (setRedisClient A env optsIn s).2.1 (some h) (some p)
        = some opts1 := by
  have hidem : resolveHostPort A opts1 = (h, p, opts1) := by
    have hi := resolveHostPort_idem A (optsIn.getD [])
    rw [hres] at hi
    exact hi
  have hne : s.nextClientId ≠ rc := Nat.ne_of_gt hlt
  have hdel : deleteClientByKey (some k) s =
      ((alookup k.id s.clients).isSome,
       { registry := s.registry,
         clients := adel k.id s.clients,
         optionsUsed := adel k.id s.optionsUsed,
         nextKeyId := s.nextKeyId,
         nextClientId := s.nextClientId }) := by
    simp [deleteClientByKey]
  have hcreate : createNewClient A opts1
      { registry := s.registry,
        clients := adel k.id s.clients,
        optionsUsed := adel k.id s.optionsUsed,
        nextKeyId := s.nextKeyId,
        nextClientId := s.nextClientId } =
      (s.nextClientId,
       { registry := s.registry,
         clients := aset k.id s.nextClientId (adel k.id s.clients),
         optionsUsed := aset k.id opts1 (adel k.id s.optionsUsed),
         nextKeyId := s.nextKeyId,
         nextClientId := s.nextClientId + 1 },
       [Effect.createClient s.nextClientId opts1]) := by
    have := createNewClient_hit A opts1
      { registry := s.registry,
        clients := adel k.id s.clients,
        optionsUsed := adel k.id s.optionsUsed,
        nextKeyId := s.nextKeyId,
        nextClientId := s.nextClientId } k (by simpa [hidem] using hreg)
    simpa [hidem] using this
  have hmain : setRedisClient A env optsIn s =
      (s.nextClientId,
       { registry := s.registry,
         clients := aset k.id s.nextClientId (adel k.id s.clients),
         optionsUsed := aset k.id opts1 (adel k.id s.optionsUsed),
         nextKeyId := s.nextKeyId,
         nextClientId := s.nextClientId + 1 },
       [Effect.disconnect rc, Effect.createClient s.nextClientId opts1]) := by
    unfold setRedisClient
    simp only [hres, getOrSetHostPortKey_hit _ _ _ _ hreg, hcli]
    simp [hno, hlen, hdeep, hdel, hcreate]
  refine ⟨hmain, hne, ?_, ?_⟩
  · rw [hmain]
    simp [getRedisClientO, getHostPortKeyO, JsVal.showO]
    have hreg2 : alookup (JsVal.show h ++ ":" ++ JsVal.show p) s.registry = some k := hreg
    simp [hreg2, alookup_aset]
  · rw [hmain]
    simp [getRedisClientOptionsUsedO, getHostPortKeyO, JsVal.showO]
    have hreg2 : alookup (JsVal.show h ++ ":" ++ JsVal.show p) s.registry = some k := hreg
    simp [hreg2, alookup_aset]

/-- Witness for C2: supplying an extra `a` option beside host and port while
the stored snapshot has only host and port replaces cached client 0 by a new
client 1, fires a disconnect of client 0, and the stored configuration
becomes the new one. -/
theorem c2_witness :
    setRedisClient A0 env0
        (some [("host", .vStr "127.0.0.1"), ("port", .vNum 6379), ("a", .vNum 1)]) sW =
      (1,
       { registry := [("127.0.0.1:6379", ⟨0, .vStr "127.0.0.1", .vNum 6379⟩)],
         clients := [(0, 1)],
         optionsUsed := [(0, [("host", .vStr "127.0.0.1"), ("port", .vNum 6379), ("a", .vNum 1)])],
         nextKeyId := 1, nextClientId := 2 },
       [Effect.disconnect 0,
        Effect.createClient 1 [("host", .vStr "127.0.0.1"), ("port", .vNum 6379), ("a", .vNum 1)]]) := by
  have H := c2_setConnection_replaces_incompatible A0 env0 sW
    (some [("host", .vStr "127.0.0.1"), ("port", .vNum 6379), ("a", .vNum 1)])
    (.vStr "127.0.0.1") (.vNum 6379)
    [("host", .vStr "127.0.0.1"), ("port", .vNum 6379), ("a", .vNum 1)]
    ⟨0, .vStr "127.0.0.1", .vNum 6379⟩ 0
    (by decide) (by decide) (by decide) (by decide) (by decide) (by decide) (by decide)
  rw [H.1]
  decide

theorem deleteClientByKey_state (k : KeyObj) (s : CacheState) :
    (deleteClientByKey (some k) s).2 =
      { s with clients := adel k.id s.clients, optionsUsed := adel k.id s.optionsUsed } := by
  simp [deleteClientByKey]

theorem createNewClient_effects (A : Adapter) (o : Config) (s : CacheState) :
    (createNewClient A o s).2.2 =
      [Effect.createClient s.nextClientId (resolveHostPort A o).2.2] := by
  unfold createNewClient getOrSetHostPortKey
  cases h : alookup (hostPortString (resolveHostPort A o).1 (resolveHostPort A o).2.1) s.registry <;>
    simp [h]

theorem createNewClient_clients_lookup (A : Adapter) (o : Config) (s : CacheState)
    (j x : Nat) (hx : alookup j (createNewClient A o s).2.1.clients = some x) :
    x = s.nextClientId ∨ alookup j s.clients = some x := by
  cases h : alookup (hostPortString (resolveHostPort A o).1 (resolveHostPort A o).2.1) s.registry with
  | some k =>
    simp only [createNewClient, getOrSetHostPortKey, h, alookup_aset] at hx
    by_cases hj : k.id = j
    · rw [if_pos hj] at hx
      exact Or.inl (Option.some_injective _ hx).symm
    · rw [if_neg hj] at hx
      exact Or.inr hx
  | none =>
    simp only [createNewClient, getOrSetHostPortKey, h, alookup_aset] at hx
    by_cases hj : s.nextKeyId = j
    · rw [if_pos hj] at hx
      exact Or.inl (Option.some_injective _ hx).symm
    · rw [if_neg hj] at hx
      exact Or.inr hx

/-- C4: `isRedisClientUsable` never rejects: its result is always an `ok`
boolean; a closing client yields `false` at once with no probe issued and no
installation; otherwise the ping probe runs (with `pingAsync` installed first
when missing), a successful probe yields `true`, and a rejected probe yields
`false` instead of propagating the rejection. -/
theorem c4_isUsable_never_rejects (env : ClientEnv) (ping : Nat → Except Nat JsVal)
    (pingInstalled : Bool) (rc : Nat) :
    (∃ b, (isRedisClientUsable env ping pingInstalled rc).1 = Except.ok b)
    ∧ (env.isClosing rc = true →
        isRedisClientUsable env ping pingInstalled rc = (Except.ok false, []))
    ∧ (env.isClosing rc = false →
        (isRedisClientUsable env ping pingInstalled rc).2 =
          (if pingInstalled then [] else [Effect.installFn "pingAsync"]) ++ [Effect.probePing rc]
        ∧ (∀ v, ping rc = Except.ok v →
            (isRedisClientUsable env ping pingInstalled rc).1 = Except.ok true)
        ∧ (∀ e, ping rc = Except.error e →
            (isRedisClientUsable env ping pingInstalled rc).1 = Except.ok false)) := by
  unfold isRedisClientUsable
  cases hcl : env.isClosing rc with
  | true => simp [hcl]
  | false =>
    cases hp : ping rc with
    | ok v => simp [hcl, hp, pthen2]
    | error e => simp [hcl, hp, pthen2]

/-- Witness for C4: a non-closing client whose ping succeeds is reported
usable, and the probe effect is recorded. -/
theorem c4_witness :
    (isRedisClientUsable env0 (fun _ => Except.ok (.vStr "PONG")) true 0).1 = Except.ok true :=
  ((c4_isUsable_never_rejects env0 (fun _ => Except.ok (.vStr "PONG")) true 0).2.2
    rfl).2.1 (.vStr "PONG") rfl

/-- C5: `replaceRedisClientIfUnusable` returns the very same client when the
usability probe reports usable; when it reports unusable, the record at the
endpoint of the client is evicted, a best-effort disconnect of the old client
is fired (its errors are `.catch`-logged in the source, not thrown), and a
new, distinct client is constructed and cached from `replacementOptions`
(the supplied options if given, else the stored snapshot of the endpoint,
else the own reported options of the client). -/
theorem c5_replaceIfUnusable_same_or_new (A : Adapter) (env : ClientEnv)
    (ping : Nat → Except Nat JsVal) (pingInstalled : Bool) (optsIn : Option Config)
    (rc : Nat) (s : CacheState)
    (hlt : rc < s.nextClientId)
    (hnodup : (s.clients.map Prod.fst).Nodup) :
    ((isRedisClientUsable env ping pingInstalled rc).1 = Except.ok true →
      replaceRedisClientIfUnusable A env ping pingInstalled optsIn rc s =
        .ok (rc, s, (isRedisClientUsable env ping pingInstalled rc).2))
    ∧ ((isRedisClientUsable env ping pingInstalled rc).1 = Except.ok false →
      ∃ st, replaceRedisClientIfUnusable A env ping pingInstalled optsIn rc s =
          .ok (s.nextClientId, st,
            (isRedisClientUsable env ping pingInstalled rc).2 ++
              Effect.disconnect rc ::
                [Effect.createClient s.nextClientId
                  (resolveHostPort A (replacementOptions env optsIn rc s)).2.2])
        ∧ s.nextClientId ≠ rc
        ∧ getRedisClientO st
            (some (resolveHostPort A (replacementOptions env optsIn rc s)).1)
            (some (resolveHostPort A (replacementOptions env optsIn rc s)).2.1)
            = some s.nextClientId
        ∧ ∀ k, alookup (hostPortString (env.hostPort rc).1 (env.hostPort rc).2) s.registry
            = some k → ¬ alookup k.id st.clients = some rc) := by
  have hne : s.nextClientId ≠ rc := Nat.ne_of_gt hlt
  constructor
  · intro hu
    unfold replaceRedisClientIfUnusable
    simp only [hu]
    simp
  · intro hu
    unfold replaceRedisClientIfUnusable
    simp only [hu]
    cases hkey : alookup (hostPortString (env.hostPort rc).1 (env.hostPort rc).2) s.registry with
    | none =>
      simp only [hkey, deleteClientByKey]
      refine ⟨(createNewClient A (replacementOptions env optsIn rc s) s).2.1, ?_, hne, ?_, ?_⟩
      · rw [createNewClient_client, createNewClient_effects]
        simp
      · have := getRedisClient_createNewClient A (replacementOptions env optsIn rc s) s
        rwa [createNewClient_client] at this
      · intro k hk
        exact absurd hk (by simp)
    | some k0 =>
      simp only [hkey, deleteClientByKey_state]
      set s1 : CacheState :=
        { s with clients := adel k0.id s.clients, optionsUsed := adel k0.id s.optionsUsed }
        with hs1
      have hn1 : s1.nextClientId = s.nextClientId := rfl
      refine ⟨(createNewClient A (replacementOptions env optsIn rc s) s1).2.1, ?_, hne, ?_, ?_⟩
      · rw [createNewClient_client, createNewClient_effects, hn1]
        simp
      · have := getRedisClient_createNewClient A (replacementOptions env optsIn rc s) s1
        rwa [createNewClient_client, hn1] at this
      · intro k hk
        have hk0 : k0 = k := Option.some_injective _ hk
        rw [← hk0]
        intro hbad
        rcases createNewClient_clients_lookup A (replacementOptions env optsIn rc s) s1
            k0.id rc hbad with hrc | hrc
        · rw [hn1] at hrc
          exact hne hrc.symm
        · have hnone : alookup k0.id s1.clients = none :=
            alookup_adel_self k0.id s.clients hnodup
          rw [hnone] at hrc
          exact Option.noConfusion hrc

/-- Witness for C5: client 0 cached at the default endpoint whose ping probe
rejects is replaced by the distinct new client 1, with the old record evicted
and the disconnect and construction effects fired. -/
theorem c5_witness :
    ∃ st, replaceRedisClientIfUnusable A0 env0 (fun _ => Except.error 2) true none 0 sW =
        .ok (1, st,
          (isRedisClientUsable env0 (fun _ => Except.error 2) true 0).2 ++
            Effect.disconnect 0 ::
              [Effect.createClient 1
                (resolveHostPort A0 (replacementOptions env0 none 0 sW)).2.2])
      ∧ (1 : Nat) ≠ 0
      ∧ getRedisClientO st
          (some (resolveHostPort A0 (replacementOptions env0 none 0 sW)).1)
          (some (resolveHostPort A0 (replacementOptions env0 none 0 sW)).2.1) = some 1
      ∧ ∀ k, alookup (hostPortString (env0.hostPort 0).1 (env0.hostPort 0).2) sW.registry
          = some k → ¬ alookup k.id st.clients = some 0 :=
  (c5_replaceIfUnusable_same_or_new A0 env0 (fun _ => Except.error 2) true none 0 sW
    (by decide) (by decide)).2 (by rfl)

/-- C6: `deleteAndDisconnectRedisClient` on a cached endpoint reports
`deleted = true`, synchronously removes the record (the disconnect is fired,
not awaited, so eviction never depends on its outcome), leaves no client
behind for `getRedisClient`, and a repeated call reports `deleted = false`. -/
theorem c6_deleteAndDisconnect_evicts_once (s : CacheState) (h p : Option JsVal)
    (k : KeyObj) (rc : Nat)
    (hreg : getHostPortKeyO s h p = some k)
    (hcli : alookup k.id s.clients = some rc)
    (hnodup : (s.clients.map Prod.fst).Nodup) :
    (deleteAndDisconnectRedisClient s h p).1 = true
    ∧ (deleteAndDisconnectRedisClient s h p).2.2 = [Effect.disconnect rc]
    ∧ getRedisClientO (deleteAndDisconnectRedisClient s h p).2.1 h p = none
    ∧ (deleteAndDisconnectRedisClient (deleteAndDisconnectRedisClient s h p).2.1 h p).1
        = false := by
  have hdel : alookup k.id (adel k.id s.clients) = none :=
    alookup_adel_self k.id s.clients hnodup
  have hmain : deleteAndDisconnectRedisClient s h p =
      (true,
       { s with clients := adel k.id s.clients, optionsUsed := adel k.id s.optionsUsed },
       [Effect.disconnect rc]) := by
    unfold deleteAndDisconnectRedisClient
    simp [hreg, hcli, deleteClientByKey]
  have hreg2 : getHostPortKeyO
      { s with clients := adel k.id s.clients, optionsUsed := adel k.id s.optionsUsed } h p
      = some k := hreg
  refine ⟨by rw [hmain], by rw [hmain], ?_, ?_⟩
  · rw [hmain]
    simp [getRedisClientO, hreg2, hdel]
  · rw [hmain]
    unfold deleteAndDisconnectRedisClient
    simp [hreg2, hdel, deleteClientByKey]

/-- Witness for C6: deleting the default endpoint from `sW` evicts client 0,
fires its disconnect, empties the lookup, and a second delete reports false. -/
theorem c6_witness :
    (deleteAndDisconnectRedisClient sW (some (.vStr "127.0.0.1")) (some (.vNum 6379))).1 = true
    ∧ (deleteAndDisconnectRedisClient sW (some (.vStr "127.0.0.1")) (some (.vNum 6379))).2.2
        = [Effect.disconnect 0]
    ∧ getRedisClientO
        (deleteAndDisconnectRedisClient sW (some (.vStr "127.0.0.1")) (some (.vNum 6379))).2.1
        (some (.vStr "127.0.0.1")) (some (.vNum 6379)) = none
    ∧ (deleteAndDisconnectRedisClient
        (deleteAndDisconnectRedisClient sW (some (.vStr "127.0.0.1")) (some (.vNum 6379))).2.1
        (some (.vStr "127.0.0.1")) (some (.vNum 6379))).1 = false :=
  c6_deleteAndDisconnect_evicts_once sW (some (.vStr "127.0.0.1")) (some (.vNum 6379))
    ⟨0, .vStr "127.0.0.1", .vNum 6379⟩ 0 (by decide) (by decide) (by decide)

/-- C3: the redirect-aware `execAsync` wrapper resolves with the result on
success; on a non-MOVED error it fires a disconnect of the original client and
rejects with that same error; on a MOVED error it obtains a client for the new
endpoint via `setRedisClient` using `movedOptions` (the last-used stored
configuration of the old endpoint, falling back to the own reported options of
the failing client, with host and port overridden) and retries the operation
exactly once: a successful retry resolves with its result, a failed retry
fires a disconnect of the new client and rejects with the error of the retry —
whether or not that second error is itself a MOVED signal, no further redirect
is followed. -/
theorem c3_execAsync_retries_once (A : Adapter) (env : ClientEnv)
    (behave : Nat → Except Nat JsVal) (rc : Nat) (s : CacheState) :
    (∀ v, behave rc = Except.ok v → execAsync A env behave rc s = (Except.ok v, s, []))
    ∧ (∀ e, behave rc = Except.error e → A.isMovedError e = false →
        execAsync A env behave rc s = (Except.error e, s, [Effect.disconnect rc]))
    ∧ (∀ e, behave rc = Except.error e → A.isMovedError e = true →
        (∀ v, behave (setRedisClient A env (some (movedOptions A env s rc e)) s).1
            = Except.ok v →
          execAsync A env behave rc s =
            (Except.ok v,
             (setRedisClient A env (some (movedOptions A env s rc e)) s).2.1,
             (setRedisClient A env (some (movedOptions A env s rc e)) s).2.2))
        ∧ (∀ e2, behave (setRedisClient A env (some (movedOptions A env s rc e)) s).1
            = Except.error e2 →
          execAsync A env behave rc s =
            (Except.error e2,
             (setRedisClient A env (some (movedOptions A env s rc e)) s).2.1,
             (setRedisClient A env (some (movedOptions A env s rc e)) s).2.2
               ++ [Effect.disconnect
                     (setRedisClient A env (some (movedOptions A env s rc e)) s).1]))) := by
  refine ⟨?_, ?_, ?_⟩
  · intro v hv
    simp [execAsync, hv]
  · intro e he hm
    simp [execAsync, he, hm]
  · intro e he hm
    constructor
    · intro v hv
      simp [execAsync, he, hm, hv]
    · intro e2 he2
      simp [execAsync, he, hm, he2]

/-- Witness for C3: client 0 at the default endpoint hits a MOVED error
(error 1), a client for the moved-to endpoint h2:7000 is created via
`setRedisClient`, and the retry against it succeeds. -/
theorem c3_witness :
    execAsync A0 env0 (fun c => if c = 0 then Except.error 1 else Except.ok (.vStr "v")) 0 sW =
      (Except.ok (.vStr "v"),
       (setRedisClient A0 env0 (some (movedOptions A0 env0 sW 0 1)) sW).2.1,
       (setRedisClient A0 env0 (some (movedOptions A0 env0 sW 0 1)) sW).2.2) :=
  ((c3_execAsync_retries_once A0 env0
      (fun c => if c = 0 then Except.error 1 else Except.ok (.vStr "v")) 0 sW).2.2
    1 rfl rfl).1 (.vStr "v") rfl

/-- C8: the claim that `getRedisClient` resolves an omitted host/port to the
adapter defaults FAILS on the shipped code: after `setRedisClient` with no
options caches client 0 for the default endpoint, `getRedisClient` with both
arguments omitted looks up the literal key "undefined:undefined" and returns
nothing, while the default-resolving behaviour promised by the spec and by the
doc comment of the method itself (here `getRedisClientSpecModel`) returns the
cached client; with the endpoint spelled out the pure lookup succeeds. -/
theorem c8_get_omitted_args_not_defaulted :
    getRedisClientO (setRedisClient A0 env0 none emptyCache).2.1 none none = none
    ∧ getRedisClientSpecModel A0 (setRedisClient A0 env0 none emptyCache).2.1 none none
        = some 0
    ∧ getRedisClientO (setRedisClient A0 env0 none emptyCache).2.1
        (some (.vStr "127.0.0.1")) (some (.vNum 6379)) = some 0 := by
  decide

/-! ## Keys of `aset`/`adel` and preservation of the lockstep invariant -/

theorem mem_keys_aset {κ α : Type} [DecidableEq κ] (k j : κ) (v : α) (l : List (κ × α)) :
    j ∈ (aset k v l).map Prod.fst ↔ j = k ∨ j ∈ l.map Prod.fst := by
  induction l with
  | nil => simp [aset, eq_comm]
  | cons kv t ih =>
    obtain ⟨k1, v1⟩ := kv
    by_cases hk : k1 = k
    · subst hk
      simp [aset]
    · simp [aset, hk, ih]
      tauto

theorem nodup_aset {κ α : Type} [DecidableEq κ] (k : κ) (v : α) (l : List (κ × α))
    (h : (l.map Prod.fst).Nodup) : ((aset k v l).map Prod.fst).Nodup := by
  induction l with
  | nil => simp [aset]
  | cons kv t ih =>
    obtain ⟨k1, v1⟩ := kv
    simp only [List.map_cons, List.nodup_cons] at h
    by_cases hk : k1 = k
    · subst hk
      simp only [aset, eq_self_iff_true, if_true, List.map_cons, List.nodup_cons]
      exact ⟨h.1, h.2⟩
    · simp only [aset, if_neg hk, List.map_cons, List.nodup_cons]
      refine ⟨?_, ih h.2⟩
      rw [mem_keys_aset]
      exact fun hc => hc.elim hk h.1

theorem keys_adel_sublist {κ α : Type} [DecidableEq κ] (k : κ) (l : List (κ × α)) :
    List.Sublist ((adel k l).map Prod.fst) (l.map Prod.fst) := by
  induction l with
  | nil => simp [adel]
  | cons kv t ih =>
    by_cases hk : kv.1 = k
    · simp only [adel, if_pos hk, List.map_cons]
      exact List.Sublist.cons _ (List.Sublist.refl _)
    · simp only [adel, if_neg hk, List.map_cons]
      exact ih.cons₂ _

theorem nodup_adel {κ α : Type} [DecidableEq κ] (k : κ) (l : List (κ × α))
    (h : (l.map Prod.fst).Nodup) : ((adel k l).map Prod.fst).Nodup :=
  h.sublist (keys_adel_sublist k l)

theorem mapsWF_aset (k c : Nat) (o : Config) (cli : List (Nat × Nat))
    (opt : List (Nat × Config)) (h : mapsWF cli opt) :
    mapsWF (aset k c cli) (aset k o opt) := by
  obtain ⟨h1, h2, h3⟩ := h
  refine ⟨nodup_aset _ _ _ h1, nodup_aset _ _ _ h2, ?_⟩
  intro kid
  rw [alookup_aset, alookup_aset]
  by_cases hk : k = kid
  · simp [hk]
  · simp [hk, h3 kid]

theorem mapsWF_adel (k : Nat) (cli : List (Nat × Nat)) (opt : List (Nat × Config))
    (h : mapsWF cli opt) : mapsWF (adel k cli) (adel k opt) := by
  obtain ⟨h1, h2, h3⟩ := h
  refine ⟨nodup_adel _ _ h1, nodup_adel _ _ h2, ?_⟩
  intro kid
  by_cases hk : k = kid
  · subst hk
    rw [alookup_adel_self _ _ h1, alookup_adel_self _ _ h2]
    rfl
  · rw [alookup_adel_ne _ _ _ hk, alookup_adel_ne _ _ _ hk]
    exact h3 kid

theorem wf_deleteClientByKey (key : Option KeyObj) (s : CacheState)
    (h : mapsWF s.clients s.optionsUsed) :
    mapsWF (deleteClientByKey key s).2.clients (deleteClientByKey key s).2.optionsUsed := by
  cases key with
  | none => simpa [deleteClientByKey] using h
  | some k => simpa [deleteClientByKey] using mapsWF_adel k.id _ _ h

theorem wf_createNewClient (A : Adapter) (o : Config) (s : CacheState)
    (h : mapsWF s.clients s.optionsUsed) :
    mapsWF (createNewClient A o s).2.1.clients (createNewClient A o s).2.1.optionsUsed := by
  unfold createNewClient getOrSetHostPortKey
  cases hk : alookup (hostPortString (resolveHostPort A o).1 (resolveHostPort A o).2.1) s.registry with
  | some k =>
    simpa [hk] using mapsWF_aset k.id s.nextClientId (resolveHostPort A o).2.2 _ _ h
  | none =>
    simpa [hk] using mapsWF_aset s.nextKeyId s.nextClientId (resolveHostPort A o).2.2 _ _ h

theorem wf_setRedisClient (A : Adapter) (env : ClientEnv) (optsIn : Option Config)
    (s : CacheState) (h : mapsWF s.clients s.optionsUsed) :
    mapsWF (setRedisClient A env optsIn s).2.1.clients
      (setRedisClient A env optsIn s).2.1.optionsUsed := by
  unfold setRedisClient getOrSetHostPortKey
  cases hk : alookup
      (hostPortString (resolveHostPort A (optsIn.getD [])).1
        (resolveHostPort A (optsIn.getD [])).2.1) s.registry with
  | some k =>
    simp only [hk]
    cases hcli : alookup k.id s.clients with
    | none => exact wf_createNewClient A _ s h
    | some rc =>
      dsimp only
      split_ifs <;>
        first
          | exact h
          | exact wf_createNewClient A _ _ (wf_deleteClientByKey _ _ h)
  | none =>
    simp only [hk]
    cases hcli : alookup s.nextKeyId s.clients with
    | none => exact wf_createNewClient A _ _ h
    | some rc =>
      dsimp only
      split_ifs <;>
        first
          | exact h
          | exact wf_createNewClient A _ _ (wf_deleteClientByKey _ _ h)

theorem wf_deleteAndDisconnect (s : CacheState) (h p : Option JsVal)
    (hwf : mapsWF s.clients s.optionsUsed) :
    mapsWF (deleteAndDisconnectRedisClient s h p).2.1.clients
      (deleteAndDisconnectRedisClient s h p).2.1.optionsUsed := by
  unfold deleteAndDisconnectRedisClient
  exact wf_deleteClientByKey _ _ hwf

theorem wf_replaceRedisClientIfClosing (A : Adapter) (env : ClientEnv) (rc : Nat)
    (s : CacheState) (hwf : mapsWF s.clients s.optionsUsed) :
    mapsWF (replaceRedisClientIfClosing A env rc s).2.1.clients
      (replaceRedisClientIfClosing A env rc s).2.1.optionsUsed := by
  unfold replaceRedisClientIfClosing
  cases hcl : env.isClosing rc with
  | true =>
    simp only [hcl, if_true]
    exact wf_createNewClient A _ _ (wf_deleteClientByKey _ _ hwf)
  | false =>
    simp only [hcl]
    exact hwf

theorem wf_getReplaceClosing (A : Adapter) (env : ClientEnv) (s : CacheState)
    (h p : Option JsVal) (hwf : mapsWF s.clients s.optionsUsed) :
    mapsWF (getRedisClientAndReplaceIfClosing A env s h p).2.1.clients
      (getRedisClientAndReplaceIfClosing A env s h p).2.1.optionsUsed := by
  unfold getRedisClientAndReplaceIfClosing
  cases hlook : (getHostPortKeyO s h p).bind (fun k => alookup k.id s.clients) with
  | none => exact hwf
  | some rc =>
    cases hcl : env.isClosing rc with
    | true =>
      simp only [hcl, if_true]
      exact wf_replaceRedisClientIfClosing A env rc s hwf
    | false =>
      simp only [hcl]
      exact hwf

theorem wf_replaceUnusable_state (A : Adapter) (env : ClientEnv)
    (ping : Nat → Except Nat JsVal) (pingInstalled : Bool) (optsIn : Option Config)
    (rc : Nat) (s : CacheState) (hwf : mapsWF s.clients s.optionsUsed) :
    mapsWF (match replaceRedisClientIfUnusable A env ping pingInstalled optsIn rc s with
            | .ok r => r.2.1
            | .error _ => s).clients
      (match replaceRedisClientIfUnusable A env ping pingInstalled optsIn rc s with
       | .ok r => r.2.1
       | .error _ => s).optionsUsed := by
  unfold replaceRedisClientIfUnusable
  cases hu : (isRedisClientUsable env ping pingInstalled rc).1 with
  | error e =>
    simp only [hu]
    exact hwf
  | ok usable =>
    simp only [hu]
    cases usable with
    | true =>
      simp only [if_true]
      exact hwf
    | false =>
      simp only [Bool.false_eq_true, if_false]
      exact wf_createNewClient A _ _ (wf_deleteClientByKey _ _ hwf)

theorem wf_clearStep_fold (ks : List KeyObj) (acc : CacheState × List Effect)
    (hwf : mapsWF acc.1.clients acc.1.optionsUsed) :
    mapsWF (ks.foldl clearStep acc).1.clients (ks.foldl clearStep acc).1.optionsUsed := by
  induction ks generalizing acc with
  | nil => exact hwf
  | cons k rest ih =>
    apply ih
    unfold clearStep
    exact wf_deleteClientByKey _ _ hwf

theorem wf_clearCache (s : CacheState) (hwf : mapsWF s.clients s.optionsUsed) :
    mapsWF (clearCache s).1.clients (clearCache s).1.optionsUsed := by
  unfold clearCache
  exact wf_clearStep_fold _ _ hwf

theorem wf_applyOp (s : CacheState) (op : CacheOp) (hwf : mapsWF s.clients s.optionsUsed) :
    mapsWF (applyOp s op).clients (applyOp s op).optionsUsed := by
  cases op with
  | setOp A env opts => exact wf_setRedisClient A env opts s hwf
  | createOp A opts => exact wf_createNewClient A opts s hwf
  | delOp h p => exact wf_deleteAndDisconnect s h p hwf
  | clearOp => exact wf_clearCache s hwf
  | replaceClosingOp A env rc => exact wf_replaceRedisClientIfClosing A env rc s hwf
  | getReplaceClosingOp A env h p => exact wf_getReplaceClosing A env s h p hwf
  | replaceUnusableOp A env ping pingInstalled opts rc =>
    exact wf_replaceUnusable_state A env ping pingInstalled opts rc s hwf

/-- C10: after any sequence of public cache operations starting from the empty
module state, an endpoint key identity has an entry in the client map exactly
when it has one in the options-snapshot map: the two entries are written
together by `createNewClient` and deleted together by
`deleteClientByHostPortKey`. -/
theorem c10_maps_in_lockstep (ops : List CacheOp) (kid : Nat) :
    (alookup kid (applyOps ops emptyCache).clients).isSome
      = (alookup kid (applyOps ops emptyCache).optionsUsed).isSome := by
  have haux : ∀ (l : List CacheOp) (s : CacheState),
      mapsWF s.clients s.optionsUsed →
      mapsWF (applyOps l s).clients (applyOps l s).optionsUsed := by
    intro l
    induction l with
    | nil => intro s hs; exact hs
    | cons op rest ih =>
      intro s hs
      exact ih _ (wf_applyOp s op hs)
  have h0 : mapsWF emptyCache.clients emptyCache.optionsUsed :=
    ⟨by simp [emptyCache], by simp [emptyCache], fun j => by simp [emptyCache, alookup]⟩
  exact (haux ops emptyCache h0).2.2 kid

/-! ## Permutation invariance (field order of a configuration object) -/

theorem alookup_perm {κ α : Type} [DecidableEq κ] (k : κ) {l1 l2 : List (κ × α)}
    (h : l1.Perm l2) (hnd : (l1.map Prod.fst).Nodup) : alookup k l1 = alookup k l2 := by
  induction h with
  | nil => rfl
  | cons x h ih =>
    simp only [List.map_cons, List.nodup_cons] at hnd
    obtain ⟨k1, v1⟩ := x
    by_cases hk : k1 = k <;> simp [alookup, hk, ih hnd.2]
  | swap x y l =>
    obtain ⟨kx, vx⟩ := x
    obtain ⟨ky, vy⟩ := y
    simp only [List.map_cons, List.nodup_cons, List.mem_cons] at hnd
    have hne : ¬ ky = kx := fun he => hnd.1 (Or.inl he)
    by_cases hky : ky = k <;> by_cases hkx : kx = k
    · exact absurd (hky.trans hkx.symm) hne
    · simp [alookup, hky, hkx]
    · simp [alookup, hky, hkx]
    · simp [alookup, hky, hkx]
  | trans h1 h2 ih1 ih2 =>
    have hnd2 := ((h1.map Prod.fst).nodup_iff).mp hnd
    rw [ih1 hnd, ih2 hnd2]

theorem aset_of_not_mem {κ α : Type} [DecidableEq κ] (k : κ) (v : α) (l : List (κ × α))
    (h : k ∉ l.map Prod.fst) : aset k v l = l ++ [(k, v)] := by
  induction l with
  | nil => rfl
  | cons kv t ih =>
    simp only [List.map_cons, List.mem_cons] at h
    push_neg at h
    have hk : ¬ kv.1 = k := fun he => h.1 he.symm
    simp [aset, hk, ih h.2]

theorem aset_of_mem {κ α : Type} [DecidableEq κ] (k : κ) (v : α) (l : List (κ × α))
    (hmem : k ∈ l.map Prod.fst) (hnd : (l.map Prod.fst).Nodup) :
    aset k v l = l.map (fun kv => if kv.1 = k then (k, v) else kv) := by
  induction l with
  | nil => simp at hmem
  | cons kv t ih =>
    obtain ⟨k1, v1⟩ := kv
    simp only [List.map_cons, List.nodup_cons] at hnd
    by_cases hk : k1 = k
    · subst hk
      simp only [aset, eq_self_iff_true, if_true, List.map_cons]
      have htid : t.map (fun kv => if kv.1 = k1 then (k1, v) else kv) = t := by
        have : ∀ x ∈ t, (fun kv : κ × α => if kv.1 = k1 then (k1, v) else kv) x = id x := by
          intro x hx
          have hx1 : x.1 ∈ t.map Prod.fst := List.mem_map_of_mem Prod.fst hx
          have : ¬ x.1 = k1 := fun he => hnd.1 (he ▸ hx1)
          simp [this]
        rw [List.map_congr_left this, List.map_id]
      rw [htid]
    · simp only [List.map_cons, List.mem_cons] at hmem
      have hmem2 : k ∈ t.map Prod.fst := by
        rcases hmem with he | hm
        · exact absurd he.symm hk
        · exact hm
      simp [aset, hk, ih hmem2 hnd.2]

theorem aset_perm {κ α : Type} [DecidableEq κ] (k : κ) (v : α) {l1 l2 : List (κ × α)}
    (h : l1.Perm l2) (hnd : (l1.map Prod.fst).Nodup) : (aset k v l1).Perm (aset k v l2) := by
  by_cases hmem : k ∈ l1.map Prod.fst
  · have hmem2 : k ∈ l2.map Prod.fst := (h.map Prod.fst).mem_iff.mp hmem
    have hnd2 := ((h.map Prod.fst).nodup_iff).mp hnd
    rw [aset_of_mem k v l1 hmem hnd, aset_of_mem k v l2 hmem2 hnd2]
    exact h.map _
  · have hmem2 : k ∉ l2.map Prod.fst := fun hc => hmem ((h.map Prod.fst).mem_iff.mpr hc)
    rw [aset_of_not_mem k v l1 hmem, aset_of_not_mem k v l2 hmem2]
    exact h.append_right _

theorem resolveField_perm (k : String) (d : JsVal) {c1 c2 : Config}
    (h : c1.Perm c2) (hnd : (c1.map Prod.fst).Nodup) :
    (resolveField k d c1).1 = (resolveField k d c2).1
    ∧ (resolveField k d c1).2.Perm (resolveField k d c2).2
    ∧ ((resolveField k d c1).2.map Prod.fst).Nodup := by
  have hl := alookup_perm k h hnd
  unfold resolveField
  rw [← hl]
  cases hv : alookup k c1 with
  | none =>
    exact ⟨rfl, aset_perm k d h hnd, nodup_aset _ _ _ hnd⟩
  | some v =>
    by_cases ht : v.truthy
    · simp only [ht, if_true]
      exact ⟨trivial, h, hnd⟩
    · simp only [ht, Bool.false_eq_true, if_false]
      exact ⟨trivial, aset_perm k d h hnd, nodup_aset _ _ _ hnd⟩

theorem resolveHostPort_perm (A : Adapter) {c1 c2 : Config}
    (h : c1.Perm c2) (hnd : (c1.map Prod.fst).Nodup) :
    (resolveHostPort A c1).1 = (resolveHostPort A c2).1
    ∧ (resolveHostPort A c1).2.1 = (resolveHostPort A c2).2.1
    ∧ (resolveHostPort A c1).2.2.Perm (resolveHostPort A c2).2.2
    ∧ ((resolveHostPort A c1).2.2.map Prod.fst).Nodup := by
  obtain ⟨e1, p1, n1⟩ := resolveField_perm "host" A.defaultHost h hnd
  have hrest := resolveField_perm "port" A.defaultPort p1 n1
  unfold resolveHostPort
  exact ⟨e1, hrest.1, hrest.2.1, hrest.2.2⟩

theorem all_congr_fn {α : Type} {l : List α} {f g : α → Bool}
    (h : ∀ x ∈ l, f x = g x) : l.all f = l.all g := by
  induction l with
  | nil => rfl
  | cons a t ih =>
    simp only [List.all_cons]
    rw [h a (List.mem_cons_self a t), ih (fun x hx => h x (List.mem_cons_of_mem a hx))]

theorem perm_all_eq {α : Type} {l1 l2 : List α} (h : l1.Perm l2) (f : α → Bool) :
    l1.all f = l2.all f := by
  by_cases h1 : l1.all f = true
  · rw [h1]
    symm
    rw [List.all_eq_true] at h1 ⊢
    intro x hx
    exact h1 x (h.mem_iff.mpr hx)
  · have h2 : ¬ l2.all f = true := fun hc => by
      rw [List.all_eq_true] at hc
      exact h1 (by
        rw [List.all_eq_true]
        intro x hx
        exact hc x (h.mem_iff.mp hx))
    rw [Bool.not_eq_true] at h1 h2
    rw [h1, h2]

theorem deepEqualCfg_perm_right (u : Config) {b1 b2 : Config} (h : b1.Perm b2)
    (hnd : (b1.map Prod.fst).Nodup) : deepEqualCfg u b1 = deepEqualCfg u b2 := by
  unfold deepEqualCfg
  have h1 : u.all (fun kv => alookup kv.1 b1 = some kv.2)
      = u.all (fun kv => alookup kv.1 b2 = some kv.2) :=
    all_congr_fn (fun kv _ => by rw [alookup_perm kv.1 h hnd])
  have h2 : b1.all (fun kv => alookup kv.1 u = some kv.2)
      = b2.all (fun kv => alookup kv.1 u = some kv.2) := perm_all_eq h _
  rw [h1, h2]

theorem deepEqualOpt_perm_right (u : Option Config) {b1 b2 : Config} (h : b1.Perm b2)
    (hnd : (b1.map Prod.fst).Nodup) : deepEqualOpt u b1 = deepEqualOpt u b2 := by
  cases u with
  | none => rfl
  | some c => exact deepEqualCfg_perm_right c h hnd

theorem noOwnProps_perm {c1 c2 : Config} (h : c1.Perm c2) :
    noOwnProps (some c1) = noOwnProps (some c2) := by
  have hlen := h.length_eq
  cases c1 <;> cases c2 <;> simp_all [noOwnProps]

/-- C7: two configuration objects holding the same fields with strictly equal
values in a different field order drive `setRedisClient` to the same decision:
the same client is returned and a new client is constructed in one run exactly
when it is in the other (the construction counter advances identically), since
every branch condition — emptiness, the resolved property count, and the
order-independent strict deep equality — is invariant under reordering. -/
theorem c7_field_order_irrelevant (A : Adapter) (env : ClientEnv) (s : CacheState)
    (cfg1 cfg2 : Config) (hperm : cfg1.Perm cfg2) (hnd : (cfg1.map Prod.fst).Nodup) :
    (setRedisClient A env (some cfg1) s).1 = (setRedisClient A env (some cfg2) s).1
    ∧ (setRedisClient A env (some cfg1) s).2.1.nextClientId
      = (setRedisClient A env (some cfg2) s).2.1.nextClientId := by
  obtain ⟨hh, hp2, hpm, hnd2⟩ := resolveHostPort_perm A hperm hnd
  have hno := noOwnProps_perm hperm
  have hlen := hpm.length_eq
  have hdeep : ∀ u : Option Config, deepEqualOpt u (resolveHostPort A cfg1).2.2
      = deepEqualOpt u (resolveHostPort A cfg2).2.2 :=
    fun u => deepEqualOpt_perm_right u hpm hnd2
  unfold setRedisClient
  simp only [Option.getD]
  rw [← hh, ← hp2, ← hno, ← hlen]
  cases hk : alookup (hostPortString (resolveHostPort A cfg1).1 (resolveHostPort A cfg1).2.1)
      s.registry with
  | some k =>
    simp only [getOrSetHostPortKey, hk]
    cases hcli : alookup k.id s.clients with
    | none =>
      exact ⟨by rw [createNewClient_client, createNewClient_client],
             by rw [createNewClient_nextClientId, createNewClient_nextClientId]⟩
    | some rc =>
      dsimp only
      rw [← hdeep]
      split_ifs <;>
        exact ⟨by rfl,
               by first
                  | rfl
                  | rw [createNewClient_nextClientId, createNewClient_nextClientId]⟩
  | none =>
    simp only [getOrSetHostPortKey, hk]
    cases hcli : alookup s.nextKeyId s.clients with
    | none =>
      exact ⟨by rw [createNewClient_client, createNewClient_client],
             by rw [createNewClient_nextClientId, createNewClient_nextClientId]⟩
    | some rc =>
      dsimp only
      rw [← hdeep]
      split_ifs <;>
        exact ⟨by rfl,
               by first
                  | rfl
                  | rw [createNewClient_nextClientId, createNewClient_nextClientId]⟩

/-- Witness for C7: the configurations `{host, port, a}` and `{a, host, port}`
(same fields, same values, different order) both reuse the cached client of a
state whose stored snapshot equals them, and neither run constructs a client. -/
theorem c7_witness :
    ((setRedisClient A0 env0
        (some [("host", .vStr "127.0.0.1"), ("port", .vNum 6379), ("a", .vNum 1)]) sW2).1
      = (setRedisClient A0 env0
        (some [("a", .vNum 1), ("host", .vStr "127.0.0.1"), ("port", .vNum 6379)]) sW2).1)
    ∧ ((setRedisClient A0 env0
        (some [("host", .vStr "127.0.0.1"), ("port", .vNum 6379), ("a", .vNum 1)]) sW2).2.1.nextClientId
      = (setRedisClient A0 env0
        (some [("a", .vNum 1), ("host", .vStr "127.0.0.1"), ("port", .vNum 6379)]) sW2).2.1.nextClientId) :=
  c7_field_order_irrelevant A0 env0 sW2
    [("host", .vStr "127.0.0.1"), ("port", .vNum 6379), ("a", .vNum 1)]
    [("a", .vNum 1), ("host", .vStr "127.0.0.1"), ("port", .vNum 6379)]
    (by decide) (by decide)

/-! ## The deep-copy guarantee on the reference-passing model -/

theorem mem_of_alookup {κ α : Type} [DecidableEq κ] (k : κ) {v : α} {l : List (κ × α)}
    (h : alookup k l = some v) : (k, v) ∈ l := by
  induction l with
  | nil => simp [alookup] at h
  | cons kv t ih =>
    obtain ⟨k1, v1⟩ := kv
    by_cases hk : k1 = k
    · subst hk
      simp [alookup] at h
      simp [h]
    · simp [alookup, hk] at h
      simp [ih h]

theorem mem_aset {κ α : Type} [DecidableEq κ] (k : κ) (v : α) (x : κ × α) (l : List (κ × α))
    (h : x ∈ aset k v l) : x ∈ l ∨ x = (k, v) := by
  induction l with
  | nil => simp [aset] at h; simp [h]
  | cons kv t ih =>
    by_cases hk : kv.1 = k
    · simp only [aset, if_pos hk, List.mem_cons] at h
      rcases h with h | h
      · exact Or.inr h
      · exact Or.inl (List.mem_cons_of_mem _ h)
    · simp only [aset, if_neg hk, List.mem_cons] at h
      rcases h with h | h
      · exact Or.inl (h ▸ List.mem_cons_self _ _)
      · rcases ih h with h1 | h1
        · exact Or.inl (List.mem_cons_of_mem _ h1)
        · exact Or.inr h1

theorem mem_adel {κ α : Type} [DecidableEq κ] (k : κ) (x : κ × α) (l : List (κ × α))
    (h : x ∈ adel k l) : x ∈ l := by
  induction l with
  | nil => simp [adel] at h
  | cons kv t ih =>
    by_cases hk : kv.1 = k
    · simp only [adel, if_pos hk] at h
      exact List.mem_cons_of_mem _ h
    · simp only [adel, if_neg hk, List.mem_cons] at h
      rcases h with h | h
      · exact h ▸ List.mem_cons_self _ _
      · exact List.mem_cons_of_mem _ (ih h)

theorem createNewClientRef_optsRef (A : Adapter) (o : Config) (t : RCache) :
    ∀ kr ∈ (createNewClientRef A o t).2.optsRef, kr ∈ t.optsRef ∨ kr.2 = t.heapNext := by
  intro kr hm
  unfold createNewClientRef getOrSetHostPortKeyR at hm
  dsimp only at hm
  cases hk : alookup (hostPortString (resolveHostPort A o).1 (resolveHostPort A o).2.1)
      t.registry with
  | some k =>
    rw [hk] at hm
    dsimp only at hm
    rcases mem_aset _ _ _ _ hm with h1 | h1
    · exact Or.inl h1
    · rw [h1]
      exact Or.inr rfl
  | none =>
    rw [hk] at hm
    dsimp only at hm
    rcases mem_aset _ _ _ _ hm with h1 | h1
    · exact Or.inl h1
    · rw [h1]
      exact Or.inr rfl

theorem createNewClientRef_optsRef_from {A : Adapter} {o : Config} {t : RCache}
    (s : RCache) (kr : Nat × Nat) (hm : kr ∈ (createNewClientRef A o t).2.optsRef)
    (hsub : ∀ x ∈ t.optsRef, x ∈ s.optsRef) (hhn : t.heapNext = s.heapNext) :
    kr.2 ∈ s.optsRef.map Prod.snd ∨ kr.2 = s.heapNext := by
  rcases createNewClientRef_optsRef A o t kr hm with h1 | h1
  · exact Or.inl (List.mem_map_of_mem Prod.snd (hsub _ h1))
  · exact Or.inr (hhn ▸ h1)

theorem setRedisClientRef_optsRef_refs (A : Adapter) (env : ClientEnv) (inRef : Option Nat)
    (s : RCache) :
    ∀ kr ∈ (setRedisClientRef A env inRef s).2.optsRef,
      kr.2 ∈ s.optsRef.map Prod.snd ∨ kr.2 = s.heapNext := by
  intro kr hm
  unfold setRedisClientRef getOrSetHostPortKeyR at hm
  dsimp only at hm
  cases hk : alookup
      (hostPortString
        (resolveHostPort A ((inRef.map (fun rr => (RCache.read s rr).getD [])).getD [])).1
        (resolveHostPort A ((inRef.map (fun rr => (RCache.read s rr).getD [])).getD [])).2.1)
      s.registry with
  | some k =>
    rw [hk] at hm
    dsimp only at hm
    cases hcli : alookup k.id s.clients with
    | none =>
      rw [hcli] at hm
      exact createNewClientRef_optsRef_from s kr hm (fun x hx => hx) rfl
    | some rc =>
      rw [hcli] at hm
      dsimp only at hm
      split_ifs at hm <;>
        first
          | exact Or.inl (List.mem_map_of_mem Prod.snd hm)
          | exact createNewClientRef_optsRef_from s kr hm (fun x hx => hx) rfl
          | exact createNewClientRef_optsRef_from s kr hm
              (fun x hx => mem_adel _ _ _ hx) rfl
  | none =>
    rw [hk] at hm
    dsimp only at hm
    cases hcli : alookup s.nextKeyId s.clients with
    | none =>
      rw [hcli] at hm
      exact createNewClientRef_optsRef_from s kr hm (fun x hx => hx) rfl
    | some rc =>
      rw [hcli] at hm
      dsimp only at hm
      split_ifs at hm <;>
        first
          | exact Or.inl (List.mem_map_of_mem Prod.snd hm)
          | exact createNewClientRef_optsRef_from s kr hm (fun x hx => hx) rfl
          | exact createNewClientRef_optsRef_from s kr hm
              (fun x hx => mem_adel _ _ _ hx) rfl

theorem createNewClientRef_congr (A : Adapter) (o : Config)
    (reg : List (String × KeyObj)) (cli opt : List (Nat × Nat)) (nk nc : Nat)
    (hA hB : List (Nat × Config)) (hn : Nat) :
    (createNewClientRef A o ⟨reg, cli, opt, nk, nc, hA, hn⟩).1
      = (createNewClientRef A o ⟨reg, cli, opt, nk, nc, hB, hn⟩).1
    ∧ (createNewClientRef A o ⟨reg, cli, opt, nk, nc, hA, hn⟩).2.clients
      = (createNewClientRef A o ⟨reg, cli, opt, nk, nc, hB, hn⟩).2.clients := by
  unfold createNewClientRef getOrSetHostPortKeyR
  cases hk : alookup (hostPortString (resolveHostPort A o).1 (resolveHostPort A o).2.1) reg <;>
    simp [hk]

theorem setRedisClientRef_congr (A : Adapter) (env : ClientEnv) (r2 : Nat)
    (reg : List (String × KeyObj)) (cli : List (Nat × Nat)) (opt : List (Nat × Nat))
    (nk nc : Nat) (hA hB : List (Nat × Config)) (hn : Nat)
    (hr2 : alookup r2 hA = alookup r2 hB)
    (hrefs : ∀ ref ∈ opt.map Prod.snd, alookup ref hA = alookup ref hB) :
    (setRedisClientRef A env (some r2) ⟨reg, cli, opt, nk, nc, hA, hn⟩).1
      = (setRedisClientRef A env (some r2) ⟨reg, cli, opt, nk, nc, hB, hn⟩).1
    ∧ (setRedisClientRef A env (some r2) ⟨reg, cli, opt, nk, nc, hA, hn⟩).2.clients
      = (setRedisClientRef A env (some r2) ⟨reg, cli, opt, nk, nc, hB, hn⟩).2.clients := by
  unfold setRedisClientRef getOrSetHostPortKeyR
  simp only [RCache.read, Option.map_some', Option.getD_some]
  rw [← hr2]
  cases hk : alookup
      (hostPortString (resolveHostPort A ((alookup r2 hA).getD [])).1
        (resolveHostPort A ((alookup r2 hA).getD [])).2.1) reg with
  | some k =>
    try dsimp only
    cases hcli : alookup k.id cli with
    | none =>
      exact createNewClientRef_congr A _ reg cli opt nk nc hA hB hn
    | some rc =>
      dsimp only
      have hused : ((alookup k.id opt).bind fun a => alookup a hB)
          = ((alookup k.id opt).bind fun a => alookup a hA) := by
        cases halk : alookup k.id opt with
        | none => rfl
        | some ref =>
          have hmem : ref ∈ opt.map Prod.snd :=
            List.mem_map_of_mem Prod.snd (mem_of_alookup k.id halk)
          simp [hrefs ref hmem]
      rw [hused]
      split_ifs <;>
        first
          | exact ⟨rfl, rfl⟩
          | exact createNewClientRef_congr A _ reg (adel k.id cli) (adel k.id opt) nk nc hA hB hn
  | none =>
    try dsimp only
    cases hcli : alookup nk cli with
    | none =>
      exact createNewClientRef_congr A _ _ cli opt (nk + 1) nc hA hB hn
    | some rc =>
      dsimp only
      have hused : ((alookup nk opt).bind fun a => alookup a hB)
          = ((alookup nk opt).bind fun a => alookup a hA) := by
        cases halk : alookup nk opt with
        | none => rfl
        | some ref =>
          have hmem : ref ∈ opt.map Prod.snd :=
            List.mem_map_of_mem Prod.snd (mem_of_alookup nk halk)
          simp [hrefs ref hmem]
      rw [hused]
      split_ifs <;>
        first
          | exact ⟨rfl, rfl⟩
          | exact createNewClientRef_congr A _ _ (adel nk cli) (adel nk opt) (nk + 1) nc hA hB hn

/-- C9: the cache stores the options as a deep copy taken at creation time.
On the reference-passing model, after `setRedisClientRef` is called with a
reference `r` to the caller configuration object (no stored snapshot aliases
`r`, as every snapshot was itself freshly allocated), mutating the object
behind `r` in place changes neither the snapshot value any later
`getRedisClientOptionsUsed` observes for any endpoint, nor the decision
(returned client and resulting client map) of any later `setRedisClient` call
made with a different configuration object reference. -/
theorem c9_stored_snapshot_decoupled (A : Adapter) (env : ClientEnv) (s : RCache)
    (r : Nat) (cfg cfg' : Config)
    (hwf : RWF s) (hr : RCache.read s r = some cfg)
    (hnoalias : ∀ kr ∈ s.optsRef, ¬ kr.2 = r) :
    (∀ h p : Option JsVal,
        getOptionsUsedRefO (mutateRef (setRedisClientRef A env (some r) s).2 r cfg') h p
          = getOptionsUsedRefO (setRedisClientRef A env (some r) s).2 h p)
    ∧ (∀ r2 : Nat, ¬ r2 = r →
        (setRedisClientRef A env (some r2)
            (mutateRef (setRedisClientRef A env (some r) s).2 r cfg')).1
          = (setRedisClientRef A env (some r2) (setRedisClientRef A env (some r) s).2).1
        ∧ (setRedisClientRef A env (some r2)
            (mutateRef (setRedisClientRef A env (some r) s).2 r cfg')).2.clients
          = (setRedisClientRef A env (some r2)
              (setRedisClientRef A env (some r) s).2).2.clients) := by
  have hrlt : r < s.heapNext := hwf (r, cfg) (mem_of_alookup r hr)
  have hner : ∀ kr ∈ (setRedisClientRef A env (some r) s).2.optsRef, ¬ kr.2 = r := by
    intro kr hm
    rcases setRedisClientRef_optsRef_refs A env (some r) s kr hm with h1 | h1
    · obtain ⟨kr0, hm0, hsnd⟩ := List.mem_map.mp h1
      intro hc
      exact hnoalias kr0 hm0 (by rw [hsnd, hc])
    · intro hc
      rw [hc] at h1
      exact absurd h1 (Nat.ne_of_lt hrlt)
  generalize hs1 : (setRedisClientRef A env (some r) s).2 = s1 at hner ⊢
  obtain ⟨reg1, cli1, opt1, nk1, nc1, hp1, hn1⟩ := s1
  constructor
  · intro h p
    unfold getOptionsUsedRefO mutateRef
    dsimp only
    cases hkey : alookup (JsVal.showO h ++ ":" ++ JsVal.showO p) reg1 with
    | none => rfl
    | some k =>
      dsimp only
      cases halk : alookup k.id opt1 with
      | none => rfl
      | some ref =>
        have hne : ¬ r = ref := by
          intro hc
          exact hner (k.id, ref) (mem_of_alookup k.id halk) hc.symm
        dsimp only [RCache.read, Option.bind]
        rw [alookup_aset]
        simp [hne]
  · intro r2 hr2
    have hA2 : alookup r2 (aset r cfg' hp1) = alookup r2 hp1 := by
      rw [alookup_aset]
      have hne2 : ¬ r = r2 := fun hc2 => hr2 hc2.symm
      simp [hne2]
    have hrefs2 : ∀ ref ∈ opt1.map Prod.snd,
        alookup ref (aset r cfg' hp1) = alookup ref hp1 := by
      intro ref hmem
      obtain ⟨kr0, hm0, hsnd⟩ := List.mem_map.mp hmem
      have hner2 : ¬ ref = r := by
        rw [← hsnd]
        exact hner kr0 hm0
      rw [alookup_aset]
      have hne3 : ¬ r = ref := fun hc2 => hner2 hc2.symm
      simp [hne3]
    exact setRedisClientRef_congr A env r2 reg1 cli1 opt1 nk1 nc1
      (aset r cfg' hp1) hp1 hn1 hA2 hrefs2

/-- Witness for C9: after caching via the object at reference 0, mutating that
object changes neither the observed stored snapshot for the endpoint h1:1 nor
the client returned by a later call passing a different reference. -/
theorem c9_witness :
    (getOptionsUsedRefO
        (mutateRef (setRedisClientRef A0 env0 (some 0) sWR).2 0 [("a", .vNum 5)])
        (some (.vStr "h1")) (some (.vNum 1))
      = getOptionsUsedRefO (setRedisClientRef A0 env0 (some 0) sWR).2
        (some (.vStr "h1")) (some (.vNum 1)))
    ∧ (setRedisClientRef A0 env0 (some 1)
        (mutateRef (setRedisClientRef A0 env0 (some 0) sWR).2 0 [("a", .vNum 5)])).1
      = (setRedisClientRef A0 env0 (some 1) (setRedisClientRef A0 env0 (some 0) sWR).2).1 :=
  ⟨(c9_stored_snapshot_decoupled A0 env0 sWR 0 [("host", .vStr "h1"), ("port", .vNum 1)]
      [("a", .vNum 5)] (by unfold RWF; decide) (by decide) (by decide)).1
    (some (.vStr "h1")) (some (.vNum 1)),
   ((c9_stored_snapshot_decoupled A0 env0 sWR 0 [("host", .vStr "h1"), ("port", .vNum 1)]
      [("a", .vNum 5)] (by unfold RWF; decide) (by decide) (by decide)).2 1 (by decide)).1⟩
